import Mathlib

/-!
Verification of the feature-selection aggregation toolset
(compute_common_features.py and generate_site.py).

Strings are embedded as lists of characters (Str).  File contents are
embedded as an optional list of characters: none models a path that does
not exist, some content models the text of the file.  Machine text
decoding and the filesystem side effects are outside the embedding; the
pure text processing of the two scripts is translated function by
function below.
-/

/-- A Python string, embedded as its list of characters. -/
abbrev Str := List Char

/-- The ASCII fragment of the whitespace set used by Python str.strip. -/
def pyIsSpace (c : Char) : Bool :=
  c = ' ' || c = '\t' || c = '\n' || c = '\r' || c = '\x0b' || c = '\x0c'

/-- Python str.strip: drop leading and trailing whitespace. -/
def pyStrip (s : Str) : Str :=
  ((s.dropWhile pyIsSpace).reverse.dropWhile pyIsSpace).reverse

/-- The punctuation characters removed by the strip-punct option of
compute_common_features.py, from the translate table built with
str.maketrans of the deletion string ".,;:!?-". -/
def punctChars : Str := ['.', ',', ';', ':', '!', '?', '-']

/-- Python y.translate(table) with a deletion table for punctChars:
every occurrence of one of those characters is deleted, all other
characters are kept. -/
def stripPunct (s : Str) : Str := s.filter (fun c => decide (c ∉ punctChars))

/-- The ASCII fragment of Python str.lower on one character: the
uppercase letters A..Z (code points 65..90) map to a..z, everything
else is unchanged. -/
def pyLowerChar (c : Char) : Char :=
  if 65 ≤ c.toNat ∧ c.toNat ≤ 90 then Char.ofNat (c.toNat + 32) else c

/-- The ASCII fragment of Python str.lower. -/
def pyLower (s : Str) : Str := s.map pyLowerChar

/-- The body of the per-item loop of normalize_items in
compute_common_features.py: optionally delete punctuation, then
optionally lowercase, then strip surrounding whitespace (the loop
updates one variable y in that order). -/
def normOne (lower strip_punct : Bool) (x : Str) : Str :=
  pyStrip (if lower then pyLower (if strip_punct then stripPunct x else x)
           else (if strip_punct then stripPunct x else x))

/-- normalize_items from compute_common_features.py.  When both switches
are off the input list is returned unchanged; otherwise each item is
normalised by normOne and items that normalise to the empty string are
dropped. -/
def normalize_items (items : List Str) (lower strip_punct : Bool) : List Str :=
  if !lower && !strip_punct then items
  else (items.map (normOne lower strip_punct)).filter (fun y => !y.isEmpty)

/-- The line loop of load_features in compute_common_features.py: strip
each line and keep the non-empty results, in order. -/
def loadLoop : List Str → List Str
  | [] => []
  | line :: rest =>
    let s := pyStrip line
    if s.isEmpty then loadLoop rest else s :: loadLoop rest

/-- load_features from compute_common_features.py.  none models a path
that does not exist (the function returns the empty list there); some
content models the text of the file, whose lines are the chunks between
newline characters (Python line iteration keeps the terminator, which
strip removes again, and the empty chunk after a trailing newline is a
blank line, which the loop skips). -/
def load_features (file : Option Str) : List Str :=
  match file with
  | none => []
  | some content => loadLoop (content.splitOn '\n')

/-- read_features from generate_site.py: textually the same reader as
load_features of compute_common_features.py. -/
def read_features (file : Option Str) : List Str :=
  match file with
  | none => []
  | some content => loadLoop (content.splitOn '\n')

/-- The accumulator loop of intersect_many: intersect the accumulator
with each remaining set, breaking out early once it becomes empty. -/
def interLoop {α : Type} [DecidableEq α] (acc : Finset α) : List (Finset α) → Finset α
  | [] => acc
  | s :: rest =>
    let acc2 := acc ∩ s
    if acc2 = ∅ then acc2 else interLoop acc2 rest

/-- intersect_many from compute_common_features.py: empty input gives
the empty set, otherwise the first set seeds the accumulator. -/
def intersect_many {α : Type} [DecidableEq α] : List (Finset α) → Finset α
  | [] => ∅
  | s :: rest => interLoop s rest

/-- Sorting a multiset of strings ascending, by insertion sort (the
algorithm is irrelevant: the result is characterised by being sorted and
a permutation of the input). -/
def sortLines (m : Multiset Str) : List Str :=
  Quot.liftOn m (fun l => List.insertionSort (· ≤ ·) l) fun _ _ h =>
    List.eq_of_perm_of_sorted
      ((List.perm_insertionSort _ _).trans (h.trans (List.perm_insertionSort _ _).symm))
      (List.sorted_insertionSort _ _) (List.sorted_insertionSort _ _)

/-- write_list from compute_common_features.py, modelled as the sequence
of lines written to the output file: the members of the set sorted
ascending (Python sorted on str is lexicographic on code points, which
is the lexicographic order on Str). -/
def write_list (items : Finset Str) : List Str := sortLines items.1

/-- The text of the file written by write_list: each line followed by a
newline character. -/
def fileContentOf (lines : List Str) : Str :=
  (lines.map (fun x => x ++ ['\n'])).flatten

-- Fixed enumerations of compute_common_features.py (folder name paired
-- with display label for groups and scenarios).
def GROUPS : List (Str × Str) :=
  [("All Groups".toList, "All Groups".toList),
   ("Pathologic And Control".toList, "Pathologic And Control".toList)]

def SCENARIOS : List (Str × Str) :=
  [("Normal only".toList, "Normal only".toList),
   ("Normal New only".toList, "Normal New only".toList),
   ("Merged Normal".toList, "Merged Normal".toList)]

def MODELS : List Str :=
  ["Logistic Regression".toList,
   "MLP".toList,
   "Support Vector Machine".toList,
   "Random Forest".toList,
   "XGBoost".toList]

/-- The filesystem seen by the aggregation driver, as a map from the
(group folder, scenario folder, model name) triple to the content of the
selected_features.txt file, none when the file does not exist. -/
abbrev FSys := Str → Str → Str → Option Str

/-- One model's normalized feature set inside main of
compute_common_features.py: load, normalize, convert to a set. -/
def modelSet (fs : FSys) (lower strip_punct : Bool) (g s m : Str) : Finset Str :=
  (normalize_items (load_features (fs g s m)) lower strip_punct).toFinset

/-- The scenario-level common set computed by main: the intersection of
the five models' normalized sets. -/
def scenario_common (fs : FSys) (lower strip_punct : Bool) (g s : Str) : Finset Str :=
  intersect_many (MODELS.map (modelSet fs lower strip_punct g s))

/-- The cross-scenario common set computed by main: the intersection of
the three per-scenario common sets, taken in scenario order (the
insertion order of the per_scenario_common dict). -/
def across_common (fs : FSys) (lower strip_punct : Bool) (g : Str) : Finset Str :=
  intersect_many (SCENARIOS.map (fun p => scenario_common fs lower strip_punct g p.1))

/-- The five per-model normalized feature sets of the worked example in
the spec: for one scenario the models selected the feature sets
containing A,B,C and B,C,D and B,C and B,C,E and B,C,F. -/
def exampleSets : List (Finset Str) :=
  [{"A".toList, "B".toList, "C".toList},
   {"B".toList, "C".toList, "D".toList},
   {"B".toList, "C".toList},
   {"B".toList, "C".toList, "E".toList},
   {"B".toList, "C".toList, "F".toList}]

/-- The punctuation deletion as the spec words it: every occurrence of
one of the characters . , ; : ! ? - is deleted from the string (removed,
not replaced by a space). -/
def specDeletePunct (s : Str) : Str :=
  s.flatMap (fun c => if c ∈ punctChars then [] else [c])

/-- The per-entry transform as the spec words it: delete the punctuation
characters if strip_punct is on, then lowercase if lowercase is on, then
trim surrounding whitespace. -/
def specEntry (lower strip_punct : Bool) (x : Str) : Str :=
  pyStrip (if lower then pyLower (if strip_punct then specDeletePunct x else x)
           else (if strip_punct then specDeletePunct x else x))

/-! ## The report renderer (generate_site.py) -/

/-- Python html.escape on one character, with quote on (the default used
by generate_site.py): the five special characters become entity
references, every other character is kept. -/
def escChar (c : Char) : Str :=
  if c = '&' then "&amp;".toList
  else if c = '<' then "&lt;".toList
  else if c = '>' then "&gt;".toList
  else if c = '"' then "&quot;".toList
  else if c = '\'' then "&#x27;".toList
  else [c]

/-- Python html.escape: the sequential replacements of html.escape act
independently on each character, so escaping is the character-wise
expansion by escChar. -/
def htmlEscape (s : Str) : Str := s.flatMap escChar

/-- The nested data dict of generate_site.py,
group folder -> scenario folder -> model -> raw feature list, modelled
as a total function (the source reads it with .get chains defaulting to
an empty list). -/
abbrev DataTree := Str → Str → Str → List Str

/-- Python str(i) for a natural number. -/
def natStr (n : Nat) : Str := (Nat.repr n).toList

/-- features_cell from build_html: a placeholder marker for an empty
list, otherwise an unordered list with one escaped item per feature. -/
def features_cell (features : List Str) : Str :=
  if features.isEmpty then "<div class=\"empty\">—</div>".toList
  else "<ul>\n".toList ++
    List.intercalate "\n".toList
      (features.map fun feat => "<li>".toList ++ htmlEscape feat ++ "</li>".toList) ++
    "\n</ul>".toList

/-- The group-level tab buttons of build_html. -/
def groups_nav : Str :=
  List.intercalate "\n".toList ((GROUPS.enum).map fun p =>
    "<button class=\"tab-link group-link\" data-target=\"group-".toList ++ natStr p.1 ++
      "\">".toList ++ htmlEscape p.2.2 ++ "</button>".toList)

/-- The scenario-level tab buttons of build_html inside group gi. -/
def scenarios_nav (gi : Nat) : Str :=
  List.intercalate "\n".toList ((SCENARIOS.enum).map fun p =>
    "<button class=\"tab-link scenario-link\" data-target=\"sc-".toList ++ natStr gi ++
      "-".toList ++ natStr p.1 ++ "\">".toList ++ htmlEscape p.2.2 ++ "</button>".toList)

/-- The table header of one scenario panel: one th cell per model. -/
def table_head : Str :=
  (MODELS.map fun m => "<th>".toList ++ htmlEscape m ++ "</th>".toList).flatten

/-- The single table row of one scenario panel: one td cell per model
holding that model's features_cell. -/
def table_row (data : DataTree) (g_folder sc_folder : Str) : Str :=
  "<tr>".toList ++
    (MODELS.map fun m =>
      "<td>".toList ++ features_cell (data g_folder sc_folder m) ++ "</td>".toList).flatten ++
    "</tr>".toList

/-- The count badges of one scenario panel: model label and raw feature
count per model. -/
def badges (data : DataTree) (g_folder sc_folder : Str) : Str :=
  (MODELS.map fun m =>
    "<div class=\"badge\"><span class=\"label\">".toList ++ htmlEscape m ++
      "</span><span class=\"count\">".toList ++
      natStr (data g_folder sc_folder m).length ++ "</span></div>".toList).flatten

/-- One scenario panel of build_html; p carries the enumeration index
and the (folder, display) pair of the scenario. -/
def scenario_section (data : DataTree) (gi : Nat) (g_folder : Str)
    (p : Nat × (Str × Str)) : Str :=
  "\n                <section id=\"sc-".toList ++ natStr gi ++ "-".toList ++ natStr p.1 ++
    "\" class=\"tab-panel scenario-panel".toList ++
    (if gi = 0 ∧ p.1 = 0 then " active".toList else []) ++
    "\">\n                    <h3>".toList ++ htmlEscape p.2.2 ++
    "</h3>\n                    <div class=\"badges\">".toList ++
    badges data g_folder p.2.1 ++
    "</div>\n                    <table class=\"features-table\">\n                        <thead><tr>".toList ++
    table_head ++
    "</tr></thead>\n                        <tbody>".toList ++
    table_row data g_folder p.2.1 ++
    "</tbody>\n                    </table>\n                </section>\n                ".toList

/-- One group panel of build_html, holding the scenario tab bar and the
concatenated scenario panels. -/
def group_section (data : DataTree) (p : Nat × (Str × Str)) : Str :=
  "\n            <section id=\"group-".toList ++ natStr p.1 ++
    "\" class=\"tab-panel group-panel".toList ++
    (if p.1 = 0 then " active".toList else []) ++
    "\">\n                <h2>".toList ++ htmlEscape p.2.2 ++
    "</h2>\n                <nav class=\"tabs scenarios\">".toList ++ scenarios_nav p.1 ++
    "</nav>\n                ".toList ++
    ((SCENARIOS.enum).map (scenario_section data p.1 p.2.1)).flatten ++
    "\n            </section>\n            ".toList

/-- All group panels joined by newlines. -/
def sections_html (data : DataTree) : Str :=
  List.intercalate "\n".toList ((GROUPS.enum).map (group_section data))

/-- The inline stylesheet of build_html (a fixed string; the doubled
braces of the Python f-string denote literal braces, and the CSS string
quotes are double quotes here). -/
def cssBlock : Str :=
  ("    :root \x7b\n      --bg: #0f172a; /* slate-900 */\n      --panel: #111827; /* gray-900 */\n      --muted: #94a3b8; /* slate-400 */\n      --text: #e5e7eb; /* gray-200 */\n      --accent: #38bdf8; /* sky-400 */\n      --accent-2: #a78bfa; /* violet-400 */\n      --table: #0b1220;\n      --border: #1f2937;\n    \x7d\n" ++
   "    html, body \x7b margin: 0; padding: 0; background: var(--bg); color: var(--text); font-family: system-ui, -apple-system, Segoe UI, Roboto, Ubuntu, Cantarell, \"Helvetica Neue\", Arial, \"Noto Sans\", \"Apple Color Emoji\", \"Segoe UI Emoji\", \"Segoe UI Symbol\"; \x7d\n" ++
   "    .container \x7b max-width: 1200px; margin: 0 auto; padding: 32px 20px 60px; \x7d\n    header \x7b display:flex; align-items:center; justify-content:space-between; gap:16px; margin-bottom: 20px; \x7d\n    h1 \x7b font-size: clamp(22px, 2vw, 28px); margin: 0; letter-spacing: 0.2px; \x7d\n    .meta \x7b color: var(--muted); font-size: 12px; \x7d\n\n" ++
   "    /* Tabs */\n    .tabs \x7b display:flex; gap:8px; margin: 16px 0 24px; flex-wrap: wrap; \x7d\n    .tab-link \x7b\n      background: linear-gradient(180deg, #1f2937, #0b1220);\n      border: 1px solid var(--border);\n      color: var(--text);\n      padding: 10px 14px;\n      border-radius: 12px;\n      cursor: pointer;\n      font-weight: 600;\n    \x7d\n    .tab-link.active \x7b outline: 2px solid var(--accent); \x7d\n\n" ++
   "    /* Panels */\n    .tab-panel \x7b display:none; background: var(--panel); border:1px solid var(--border); padding: 20px; border-radius: 16px; box-shadow: 0 10px 30px rgba(0,0,0,.3); \x7d\n    .tab-panel.active \x7b display:block; \x7d\n    .group-panel h2 \x7b margin-top: 0; margin-bottom: 8px; font-size: 20px; \x7d\n    .scenario-panel h3 \x7b margin: 0 0 12px; font-size: 18px; \x7d\n\n" ++
   "    /* Badges + Table */\n    .badges \x7b display:flex; gap:10px; flex-wrap: wrap; margin-bottom: 10px; \x7d\n    .badge \x7b display:flex; align-items:center; gap:8px; background: #0b1220; border:1px solid var(--border); padding: 6px 10px; border-radius: 999px; \x7d\n    .badge .label \x7b color: var(--muted); font-size: 12px; \x7d\n    .badge .count \x7b background: linear-gradient(180deg, var(--accent), var(--accent-2)); color: #0b1220; font-weight: 800; padding: 2px 8px; border-radius: 999px; font-size: 12px; \x7d\n\n" ++
   "    table.features-table \x7b width: 100%; border-collapse: collapse; background: var(--table); border-radius: 12px; overflow: hidden; \x7d\n    .features-table thead th \x7b text-align: left; padding: 12px; border-bottom: 1px solid var(--border); font-size: 14px; color: var(--muted); \x7d\n    .features-table td \x7b vertical-align: top; padding: 14px; border-right: 1px solid var(--border); \x7d\n    .features-table td:last-child \x7b border-right: none; \x7d\n    .features-table ul \x7b margin: 0; padding-left: 18px; \x7d\n    .features-table li \x7b line-height: 1.5; \x7d\n    .empty \x7b color: var(--muted); font-style: italic; \x7d\n\n" ++
   "    footer \x7b margin-top: 26px; color: var(--muted); font-size: 12px; text-align: right; \x7d\n").toList

/-- The inline script of build_html (a fixed string, written with double
quoted JS strings; the template literals keep their backticks). -/
def jsBlock : Str :=
  ("const groupLinks = Array.from(document.querySelectorAll(\".group-link\"));\nconst groupPanels = Array.from(document.querySelectorAll(\".group-panel\"));\n\n" ++
   "function activateGroup(index) \x7b\n  groupLinks.forEach((b, i) => b.classList.toggle(\"active\", i === index));\n  groupPanels.forEach((p, i) => p.classList.toggle(\"active\", i === index));\n  localStorage.setItem(\"activeGroupIndex\", String(index));\n\n  const panel = groupPanels[index];\n  const key = `activeScenarioIndex_group_$\x7bindex\x7d`;\n  const saved = parseInt(localStorage.getItem(key) || \"0\", 10);\n  const sPanels = Array.from(panel.querySelectorAll(\".scenario-panel\"));\n  const safe = Number.isFinite(saved) ? Math.max(0, Math.min(saved, sPanels.length - 1)) : 0;\n  activateScenarioIn(panel, safe);\n\x7d\n\n" ++
   "function activateScenarioIn(groupPanel, index) \x7b\n  const sLinks = Array.from(groupPanel.querySelectorAll(\".scenario-link\"));\n  const sPanels = Array.from(groupPanel.querySelectorAll(\".scenario-panel\"));\n  sLinks.forEach((b, i) => b.classList.toggle(\"active\", i === index));\n  sPanels.forEach((p, i) => p.classList.toggle(\"active\", i === index));\n  const gi = Array.from(document.querySelectorAll(\".group-panel\")).indexOf(groupPanel);\n  localStorage.setItem(`activeScenarioIndex_group_$\x7bgi\x7d`, String(index));\n\x7d\n\n" ++
   "// Wire up scenario tab clicks\ngroupPanels.forEach((panel, gi) => \x7b\n  const sLinks = Array.from(panel.querySelectorAll(\".scenario-link\"));\n  sLinks.forEach((b, si) => b.addEventListener(\"click\", () => activateScenarioIn(panel, si)));\n\x7d);\n\n" ++
   "// Wire up group tab clicks\ngroupLinks.forEach((b, i) => b.addEventListener(\"click\", () => activateGroup(i)));\n\n" ++
   "// initial\nconst savedGroup = parseInt(localStorage.getItem(\"activeGroupIndex\") || \"0\", 10);\nconst gSafe = Number.isFinite(savedGroup) ? Math.max(0, Math.min(savedGroup, groupPanels.length - 1)) : 0;\nactivateGroup(gSafe);").toList

-- The fixed template pieces of the final document, in order of
-- appearance around the interpolated values.
def htmlPre1 : Str :=
  "\n<!DOCTYPE html>\n<html lang=\"it\">\n<head>\n  <meta charset=\"utf-8\" />\n  <meta name=\"viewport\" content=\"width=device-width, initial-scale=1\" />\n  <title>".toList

def htmlPre2 : Str :=
  "</title>\n  <style>\n".toList ++ cssBlock ++
    "  </style>\n</head>\n<body>\n  <div class=\"container\">\n    <header>\n      <h1>".toList

def htmlPre3 : Str := "</h1>\n      <div class=\"meta\">Generato il ".toList

def htmlPre4 : Str := " — sorgente: <code>".toList

def htmlPre5 : Str :=
  "</code></div>\n    </header>\n\n    <div>\n      <div style=\"font-size:12px;color:var(--muted);margin-bottom:4px;\">Groups</div>\n      <nav class=\"tabs groups\">".toList

def htmlPre6 : Str := "</nav>\n    </div>\n\n    ".toList

def htmlPre7 : Str :=
  "\n\n    <footer>\n      Static site — export HTML generato da script Python.\n    </footer>\n  </div>\n\n  <script>\n".toList

def htmlPre8 : Str := "\n  </script>\n</body>\n</html>\n".toList

/-- build_html from generate_site.py: the full document, with the title
escaped in the head and in the page header, the generation timestamp (a
parameter here, datetime.now in the source) unescaped in the meta line,
the base directory escaped in the meta line, then the group tab bar, the
group sections and the inline script. -/
def build_html (title base_dir generated_at : Str) (data : DataTree) : Str :=
  htmlPre1 ++ htmlEscape title ++ htmlPre2 ++ htmlEscape title ++ htmlPre3 ++
    generated_at ++ htmlPre4 ++ htmlEscape base_dir ++ htmlPre5 ++ groups_nav ++
    htmlPre6 ++ sections_html data ++ htmlPre7 ++ jsBlock ++ htmlPre8

/-- The escaped list item a feature name contributes to its model cell. -/
def liPiece (f : Str) : Str := "<li>".toList ++ htmlEscape f ++ "</li>".toList

/-! ## Theory of the set intersector -/

lemma mem_interLoop {α : Type} [DecidableEq α] (rest : List (Finset α)) (acc : Finset α)
    (x : α) : x ∈ interLoop acc rest ↔ x ∈ acc ∧ ∀ s ∈ rest, x ∈ s := by
  induction rest generalizing acc with
  | nil => simp [interLoop]
  | cons s rest ih =>
    simp only [interLoop]
    by_cases h : acc ∩ s = ∅
    · rw [if_pos h, h]
      simp only [Finset.not_mem_empty, false_iff, List.forall_mem_cons]
      rintro ⟨hacc, hs, -⟩
      have hmem : x ∈ acc ∩ s := Finset.mem_inter.mpr ⟨hacc, hs⟩
      rw [h] at hmem
      exact absurd hmem (Finset.not_mem_empty x)
    · rw [if_neg h, ih]
      simp [Finset.mem_inter, List.forall_mem_cons, and_assoc]

lemma mem_intersect_many {α : Type} [DecidableEq α] (sets : List (Finset α)) (x : α) :
    x ∈ intersect_many sets ↔ sets ≠ [] ∧ ∀ s ∈ sets, x ∈ s := by
  cases sets with
  | nil => simp [intersect_many]
  | cons s rest => simp [intersect_many, mem_interLoop, List.forall_mem_cons]

lemma intersect_many_flatten {α : Type} [DecidableEq α] (L : List (List (Finset α)))
    (h : ∀ l ∈ L, l ≠ []) (h2 : L ≠ []) :
    intersect_many (L.map intersect_many) = intersect_many L.flatten := by
  have hfl : L.flatten ≠ [] := by
    intro hf
    rcases List.exists_mem_of_ne_nil L h2 with ⟨l0, hl0⟩
    exact h l0 hl0 (List.flatten_eq_nil_iff.mp hf l0 hl0)
  have hmap : L.map intersect_many ≠ [] := by
    intro hm
    exact h2 (List.map_eq_nil_iff.mp hm)
  ext x
  simp only [mem_intersect_many]
  constructor
  · rintro ⟨-, hall⟩
    refine ⟨hfl, fun s hs => ?_⟩
    rcases List.mem_flatten.mp hs with ⟨l, hl, hsl⟩
    have hx := hall (intersect_many l) (List.mem_map_of_mem _ hl)
    rw [mem_intersect_many] at hx
    exact hx.2 s hsl
  · rintro ⟨-, hall⟩
    refine ⟨hmap, fun t ht => ?_⟩
    rcases List.mem_map.mp ht with ⟨l, hl, rfl⟩
    rw [mem_intersect_many]
    exact ⟨h l hl, fun s hs => hall s (List.mem_flatten.mpr ⟨l, hl, hs⟩)⟩

/-- Claim C1: for the scenario whose five per-model normalized feature
sets are A,B,C / B,C,D / B,C / B,C,E / B,C,F, the scenario-common result
computed by intersect_many is exactly the set of B and C, and write_list
writes it as the two lines B then C, in that order. -/
theorem example_common_is_B_C :
    intersect_many exampleSets = {"B".toList, "C".toList} ∧
    write_list (intersect_many exampleSets) = ["B".toList, "C".toList] := by
  constructor <;> decide

/-- Claim C2: intersect_many returns the empty set on the empty
collection, returns a single set unchanged, and on any non-empty
collection returns exactly the set of elements belonging to every
member of the collection. -/
theorem intersect_many_correct (sets : List (Finset Str)) :
    intersect_many ([] : List (Finset Str)) = ∅ ∧
    (∀ s : Finset Str, intersect_many [s] = s) ∧
    (sets ≠ [] → ∀ x : Str, x ∈ intersect_many sets ↔ ∀ s ∈ sets, x ∈ s) := by
  refine ⟨rfl, fun s => rfl, fun h x => ?_⟩
  rw [mem_intersect_many]
  simp [h]

/-- Witness for claim C2 at a concrete two-set collection. -/
theorem intersect_many_correct_witness :
    ([({"a".toList, "b".toList} : Finset Str), {"b".toList, "c".toList}] ≠ []) ∧
    ("b".toList ∈ intersect_many [({"a".toList, "b".toList} : Finset Str), {"b".toList, "c".toList}] ↔
      ∀ s ∈ [({"a".toList, "b".toList} : Finset Str), {"b".toList, "c".toList}], "b".toList ∈ s) :=
  ⟨by decide,
   (intersect_many_correct [({"a".toList, "b".toList} : Finset Str), {"b".toList, "c".toList}]).2.2
     (by decide) "b".toList⟩

/-- Claim C3: intersect_many is invariant under permutation of the
input collection. -/
theorem intersect_many_perm (l1 l2 : List (Finset Str)) (h : l1.Perm l2) :
    intersect_many l1 = intersect_many l2 := by
  ext x
  simp only [mem_intersect_many]
  constructor
  · rintro ⟨hne, hall⟩
    refine ⟨fun he => hne ?_, fun s hs => hall s (h.mem_iff.mpr hs)⟩
    subst he
    exact h.eq_nil
  · rintro ⟨hne, hall⟩
    refine ⟨fun he => hne ?_, fun s hs => hall s (h.mem_iff.mp hs)⟩
    subst he
    exact h.symm.eq_nil

/-- Witness for claim C3 at a concrete permutation of two sets. -/
theorem intersect_many_perm_witness :
    intersect_many [({"a".toList, "b".toList} : Finset Str), {"b".toList}] =
      intersect_many [({"b".toList} : Finset Str), {"a".toList, "b".toList}] :=
  intersect_many_perm _ _ (by decide)

/-- Claim C10: for every filesystem, normalization setting and group,
the cross-scenario common set computed by the driver (intersecting the
three per-scenario common sets) equals the one-level intersection of all
fifteen per-(scenario, model) normalized feature sets of the group. -/
theorem across_common_eq_one_level (fs : FSys) (lower strip_punct : Bool) (g : Str) :
    across_common fs lower strip_punct g =
      intersect_many
        ((SCENARIOS.map fun p => MODELS.map (modelSet fs lower strip_punct g p.1)).flatten) ∧
    ((SCENARIOS.map fun p => MODELS.map (modelSet fs lower strip_punct g p.1)).flatten).length
      = 15 := by
  constructor
  · unfold across_common scenario_common
    rw [show (SCENARIOS.map fun p =>
          intersect_many (MODELS.map (modelSet fs lower strip_punct g p.1)))
        = (SCENARIOS.map fun p => MODELS.map (modelSet fs lower strip_punct g p.1)).map
            intersect_many from by rw [List.map_map]; rfl]
    apply intersect_many_flatten
    · intro l hl
      rcases List.mem_map.mp hl with ⟨p, -, rfl⟩
      simp [ MODELS ]
    · simp [SCENARIOS]
  · simp [SCENARIOS, MODELS]

/-! ## Theory of the normalizer -/

lemma dropWhile_dropWhile (p : Char → Bool) (l : Str) :
    (l.dropWhile p).dropWhile p = l.dropWhile p := by
  induction l with
  | nil => rfl
  | cons a l ih =>
    by_cases h : p a
    · rw [List.dropWhile_cons_of_pos h]
      exact ih
    · rw [List.dropWhile_cons_of_neg h, List.dropWhile_cons_of_neg h]

lemma head_false_of_dropWhile_eq_self {p : Char → Bool} {x : Char} {l : Str}
    (h : (x :: l).dropWhile p = x :: l) : ¬p x := by
  intro hp
  rw [List.dropWhile_cons_of_pos hp] at h
  have hlen : (l.dropWhile p).length ≤ l.length := (List.dropWhile_sublist p).length_le
  rw [h] at hlen
  simp at hlen

lemma dropWhile_of_trailTrim (p : Char → Bool) (a : Str) (haa : a.dropWhile p = a) :
    ((a.reverse.dropWhile p).reverse).dropWhile p = (a.reverse.dropWhile p).reverse := by
  have hsuf : a.reverse.dropWhile p <:+ a.reverse := List.dropWhile_suffix p
  have hpre : (a.reverse.dropWhile p).reverse <+: a := by
    have h2 : (a.reverse.dropWhile p).reverse <+: a.reverse.reverse :=
      List.reverse_prefix.mpr hsuf
    simpa using h2
  cases hb : (a.reverse.dropWhile p).reverse with
  | nil => rfl
  | cons x b2 =>
    rw [hb] at hpre
    rcases hpre with ⟨t, ht⟩
    rw [List.cons_append] at ht
    rw [← ht] at haa
    exact List.dropWhile_cons_of_neg (head_false_of_dropWhile_eq_self haa)

lemma pyStrip_dropWhile (s : Str) : (pyStrip s).dropWhile pyIsSpace = pyStrip s :=
  dropWhile_of_trailTrim pyIsSpace (s.dropWhile pyIsSpace) (dropWhile_dropWhile _ _)

lemma pyStrip_idem (s : Str) : pyStrip (pyStrip s) = pyStrip s := by
  show (((pyStrip s).dropWhile pyIsSpace).reverse.dropWhile pyIsSpace).reverse = pyStrip s
  rw [pyStrip_dropWhile]
  rw [show (pyStrip s).reverse = (s.dropWhile pyIsSpace).reverse.dropWhile pyIsSpace from by
    simp [pyStrip]]
  rw [dropWhile_dropWhile]
  simp [pyStrip]

lemma mem_of_mem_dropWhile {p : Char → Bool} {c : Char} {l : Str}
    (h : c ∈ l.dropWhile p) : c ∈ l :=
  (List.dropWhile_suffix p).sublist.subset h

lemma mem_of_mem_pyStrip {c : Char} {s : Str} (h : c ∈ pyStrip s) : c ∈ s := by
  unfold pyStrip at h
  rw [List.mem_reverse] at h
  have h2 := mem_of_mem_dropWhile h
  rw [List.mem_reverse] at h2
  exact mem_of_mem_dropWhile h2

lemma no_punct_stripPunct (s : Str) : ∀ c ∈ stripPunct s, c ∉ punctChars := by
  intro c hc
  have h2 := (List.mem_filter.mp hc).2
  simpa using h2

lemma stripPunct_eq_self {s : Str} (h : ∀ c ∈ s, c ∉ punctChars) : stripPunct s = s := by
  apply List.filter_eq_self.mpr
  intro a ha
  simpa using h a ha

lemma asciiShift_toNat : ∀ n, n < 91 → 65 ≤ n → (Char.ofNat (n + 32)).toNat = n + 32 := by
  decide

lemma pyLowerChar_eq_self {c : Char} (h : ¬(65 ≤ c.toNat ∧ c.toNat ≤ 90)) :
    pyLowerChar c = c := by
  unfold pyLowerChar
  rw [if_neg h]

lemma pyLowerChar_not_upper (c : Char) :
    ¬(65 ≤ (pyLowerChar c).toNat ∧ (pyLowerChar c).toNat ≤ 90) := by
  by_cases h : 65 ≤ c.toNat ∧ c.toNat ≤ 90
  · unfold pyLowerChar
    rw [if_pos h]
    have hk := asciiShift_toNat c.toNat (by omega) h.1
    omega
  · rw [pyLowerChar_eq_self h]
    exact h

lemma punct_toNat_le {c : Char} (h : c ∈ punctChars) : c.toNat ≤ 63 := by
  simp only [punctChars, List.mem_cons, List.not_mem_nil, or_false] at h
  rcases h with rfl | rfl | rfl | rfl | rfl | rfl | rfl <;> decide

lemma pyLowerChar_not_punct {c : Char} (h : c ∉ punctChars) : pyLowerChar c ∉ punctChars := by
  intro hmem
  have h63 := punct_toNat_le hmem
  by_cases hu : 65 ≤ c.toNat ∧ c.toNat ≤ 90
  · unfold pyLowerChar at h63
    rw [if_pos hu] at h63
    have hk := asciiShift_toNat c.toNat (by omega) hu.1
    omega
  · rw [pyLowerChar_eq_self hu] at hmem
    exact h hmem

lemma no_upper_pyLower (s : Str) {c : Char} (h : c ∈ pyLower s) :
    ¬(65 ≤ c.toNat ∧ c.toNat ≤ 90) := by
  rcases List.mem_map.mp h with ⟨d, -, rfl⟩
  exact pyLowerChar_not_upper d

lemma no_punct_pyLower {s : Str} (hs : ∀ c ∈ s, c ∉ punctChars) {c : Char}
    (h : c ∈ pyLower s) : c ∉ punctChars := by
  rcases List.mem_map.mp h with ⟨d, hd, rfl⟩
  exact pyLowerChar_not_punct (hs d hd)

lemma pyLower_fix {s : Str} (h : ∀ c ∈ s, ¬(65 ≤ c.toNat ∧ c.toNat ≤ 90)) :
    pyLower s = s := by
  induction s with
  | nil => rfl
  | cons a l ih =>
    have ha := pyLowerChar_eq_self (h a (List.mem_cons_self a l))
    have hl := ih fun c hc => h c (List.mem_cons_of_mem a hc)
    unfold pyLower at hl ⊢
    rw [List.map_cons, ha, hl]

lemma normOne_fix (lower strip_punct : Bool) (x : Str) :
    normOne lower strip_punct (normOne lower strip_punct x) = normOne lower strip_punct x := by
  cases lower <;> cases strip_punct
  · -- both switches off inside the entry transform
    show pyStrip (pyStrip x) = pyStrip x
    exact pyStrip_idem x
  · show pyStrip (stripPunct (pyStrip (stripPunct x))) = pyStrip (stripPunct x)
    rw [stripPunct_eq_self fun c hc => no_punct_stripPunct x c (mem_of_mem_pyStrip hc)]
    exact pyStrip_idem _
  · show pyStrip (pyLower (pyStrip (pyLower x))) = pyStrip (pyLower x)
    rw [pyLower_fix fun c hc => no_upper_pyLower x (mem_of_mem_pyStrip hc)]
    exact pyStrip_idem _
  · show pyStrip (pyLower (stripPunct (pyStrip (pyLower (stripPunct x)))))
      = pyStrip (pyLower (stripPunct x))
    rw [stripPunct_eq_self fun c hc =>
      no_punct_pyLower (no_punct_stripPunct x) (mem_of_mem_pyStrip hc)]
    rw [pyLower_fix fun c hc => no_upper_pyLower (stripPunct x) (mem_of_mem_pyStrip hc)]
    exact pyStrip_idem _

lemma pyStrip_normOne (lower strip_punct : Bool) (x : Str) :
    pyStrip (normOne lower strip_punct x) = normOne lower strip_punct x :=
  pyStrip_idem _

lemma filter_map_fix {f : Str → Str} {p : Str → Bool} (L : List Str)
    (h : ∀ y ∈ L, f y = y) (h2 : ∀ y ∈ L, p y = true) : (L.map f).filter p = L := by
  induction L with
  | nil => rfl
  | cons a L ih =>
    rw [List.map_cons, List.filter_cons, h a (List.mem_cons_self a L),
      if_pos (h2 a (List.mem_cons_self a L)),
      ih (fun y hy => h y (List.mem_cons_of_mem a hy))
        (fun y hy => h2 y (List.mem_cons_of_mem a hy))]

/-- Claim C6: applying normalize_items twice with the same switches
gives the same result as applying it once. -/
theorem normalize_items_idem (items : List Str) (lower strip_punct : Bool) :
    normalize_items (normalize_items items lower strip_punct) lower strip_punct =
      normalize_items items lower strip_punct := by
  by_cases hb : (!lower && !strip_punct) = true
  · unfold normalize_items
    rw [if_pos hb, if_pos hb]
  · have hL : normalize_items items lower strip_punct =
        (items.map (normOne lower strip_punct)).filter (fun y => !y.isEmpty) := by
      unfold normalize_items
      rw [if_neg hb]
    rw [hL]
    unfold normalize_items
    rw [if_neg hb]
    apply filter_map_fix
    · intro y hy
      rcases List.mem_map.mp (List.mem_of_mem_filter hy) with ⟨x, -, rfl⟩
      exact normOne_fix lower strip_punct x
    · intro y hy
      exact (List.mem_filter.mp hy).2

/-- Claim C5, amended to respect the both-switches-off shortcut: when at
least one switch is on, every entry of the result is trimmed of
surrounding whitespace and non-empty (entries normalizing to the empty
string are dropped); when both switches are off the input is returned
unchanged. -/
theorem normalize_items_entries (items : List Str) (lower strip_punct : Bool) :
    ((lower = true ∨ strip_punct = true) →
      ∀ y ∈ normalize_items items lower strip_punct, pyStrip y = y ∧ y ≠ []) ∧
    normalize_items items false false = items := by
  constructor
  · intro h y hy
    have hb : ¬((!lower && !strip_punct) = true) := by
      rcases h with h | h <;> rw [h] <;> simp
    unfold normalize_items at hy
    rw [if_neg hb] at hy
    constructor
    · rcases List.mem_map.mp (List.mem_of_mem_filter hy) with ⟨x, -, rfl⟩
      exact pyStrip_normOne lower strip_punct x
    · have h2 := (List.mem_filter.mp hy).2
      simpa using h2
  · rfl

/-- Witness for claim C5 at one switched-on input. -/
theorem normalize_items_entries_witness :
    pyStrip "a".toList = "a".toList ∧ "a".toList ≠ [] :=
  (normalize_items_entries [" a ".toList] true false).1 (Or.inl rfl) "a".toList (by decide)

/-- Counterexample to claim C5 as stated: with both switches off, an
entry that is the empty string is returned as is, so the result can
contain an empty (hence untrimmed-empty) entry. -/
theorem normalize_items_entries_cex :
    normalize_items [([] : Str)] false false = [([] : Str)] ∧
    ([] : Str) ∈ normalize_items [([] : Str)] false false := by
  constructor <;> decide

lemma specDeletePunct_eq (s : Str) : specDeletePunct s = stripPunct s := by
  induction s with
  | nil => rfl
  | cons a l ih =>
    unfold specDeletePunct stripPunct at ih ⊢
    rw [List.flatMap_cons, List.filter_cons]
    by_cases h : a ∈ punctChars
    · rw [if_pos h, if_neg (by simpa using h)]
      simpa using ih
    · rw [if_neg h, if_pos (by simpa using h)]
      rw [ih]
      rfl

/-- Claim C4, amended to respect the both-switches-off shortcut: when at
least one switch is on, each entry is transformed by deleting the
punctuation characters (if strip_punct), then lowercasing (if
lowercase), then trimming, in that order, and entries that become empty
are dropped; when both switches are off the input is returned
unchanged (in particular untrimmed). -/
theorem normalize_items_order (items : List Str) (lower strip_punct : Bool)
    (h : lower = true ∨ strip_punct = true) :
    (∀ x : Str, normOne lower strip_punct x = specEntry lower strip_punct x) ∧
    normalize_items items lower strip_punct =
      (items.map (specEntry lower strip_punct)).filter (fun y => !y.isEmpty) := by
  have he : ∀ x : Str, normOne lower strip_punct x = specEntry lower strip_punct x := by
    intro x
    unfold normOne specEntry
    rw [specDeletePunct_eq]
  refine ⟨he, ?_⟩
  have hb : ¬((!lower && !strip_punct) = true) := by
    rcases h with h | h <;> rw [h] <;> simp
  unfold normalize_items
  rw [if_neg hb]
  rw [List.map_congr_left fun x _ => he x]

/-- Witness for claim C4 at one switched-on input. -/
theorem normalize_items_order_witness :
    normalize_items [" A.b ".toList] true true =
      ([" A.b ".toList].map (specEntry true true)).filter (fun y => !y.isEmpty) :=
  (normalize_items_order [" A.b ".toList] true true (Or.inl rfl)).2

/-- Counterexample to claim C4 as stated: with both switches off the
entry " a " is returned untrimmed, while the claimed order of
operations (delete punctuation, lowercase, trim) would trim it to
"a". -/
theorem normalize_items_order_cex :
    normalize_items [" a ".toList] false false = [" a ".toList] ∧
    specEntry false false " a ".toList = "a".toList ∧
    " a ".toList ≠ "a".toList := by
  refine ⟨rfl, by decide, by decide⟩

/-! ## Theory of the feature loader and the writer -/

lemma loadLoop_eq (ls : List Str) :
    loadLoop ls = (ls.map pyStrip).filter (fun y => !y.isEmpty) := by
  induction ls with
  | nil => rfl
  | cons line rest ih =>
    show (if (pyStrip line).isEmpty then loadLoop rest else pyStrip line :: loadLoop rest) = _
    rw [List.map_cons, List.filter_cons]
    by_cases h : (pyStrip line).isEmpty
    · rw [if_pos h, if_neg (by simp [h]), ih]
    · rw [if_neg h, if_pos (by simp [h]), ih]

/-- Claim C7: the loaders of both tools return the empty sequence for a
missing file (modelled as none; they are total functions, so the run
completes and the missing file contributes an empty list), the two
loaders agree, and an existing file yields exactly its non-empty
whitespace-trimmed lines in file order; every returned entry is trimmed
and non-empty. -/
theorem load_features_spec :
    load_features none = [] ∧ read_features none = [] ∧
    (∀ file, read_features file = load_features file) ∧
    (∀ content : Str, load_features (some content) =
      ((content.splitOn '\n').map pyStrip).filter (fun y => !y.isEmpty)) ∧
    (∀ file, ∀ y ∈ load_features file, pyStrip y = y ∧ y ≠ []) := by
  refine ⟨rfl, rfl, fun file => by cases file <;> rfl, fun content => loadLoop_eq _, ?_⟩
  intro file y hy
  cases file with
  | none => cases hy
  | some content =>
    have hy2 : y ∈ ((content.splitOn '\n').map pyStrip).filter (fun y => !y.isEmpty) := by
      rw [← loadLoop_eq]
      exact hy
    constructor
    · rcases List.mem_map.mp (List.mem_of_mem_filter hy2) with ⟨line, -, rfl⟩
      exact pyStrip_idem line
    · have h2 := (List.mem_filter.mp hy2).2
      simpa using h2

/-- Witness for claim C7 at a concrete present file. -/
theorem load_features_spec_witness :
    load_features none = [] ∧ (pyStrip "a".toList = "a".toList ∧ "a".toList ≠ []) :=
  ⟨load_features_spec.1,
   load_features_spec.2.2.2.2 (some " a \nb\n".toList) "a".toList (by decide)⟩

lemma sortLines_sorted (m : Multiset Str) : List.Sorted (· ≤ ·) (sortLines m) := by
  induction m using Quot.inductionOn with
  | _ l => exact List.sorted_insertionSort _ _

lemma sortLines_perm (m : Multiset Str) : (sortLines m : Multiset Str) = m := by
  induction m using Quot.inductionOn with
  | _ l => exact Quot.sound (List.perm_insertionSort _ _)

lemma write_list_sorted (S : Finset Str) : List.Sorted (· ≤ ·) (write_list S) :=
  sortLines_sorted S.1

lemma mem_write_list {S : Finset Str} {x : Str} : x ∈ write_list S ↔ x ∈ S := by
  rw [Finset.mem_def, ← sortLines_perm S.1, Multiset.mem_coe]
  exact Iff.rfl

lemma write_list_toFinset (S : Finset Str) : (write_list S).toFinset = S := by
  ext x
  rw [List.mem_toFinset, mem_write_list]

lemma splitOn_fileContent (lines : List Str) (h : ∀ l ∈ lines, '\n' ∉ l) :
    (fileContentOf lines).splitOn '\n' = lines ++ [[]] := by
  induction lines with
  | nil => rfl
  | cons l rest ih =>
    have hstep : fileContentOf (l :: rest) = l ++ '\n' :: fileContentOf rest := by
      unfold fileContentOf
      rw [List.map_cons, List.flatten_cons]
      simp [List.append_assoc]
    rw [hstep]
    have hsp : ∀ x ∈ l, ¬((x == '\n') = true) := by
      intro x hx
      simp only [beq_iff_eq]
      intro he
      exact h l (List.mem_cons_self l rest) (he ▸ hx)
    have hkey :=
      List.splitOnP_first (fun x => x == '\n') l hsp '\n' (by simp) (fileContentOf rest)
    show (l ++ '\n' :: fileContentOf rest).splitOnP (· == '\n') = (l :: rest) ++ [[]]
    rw [hkey]
    have ihr := ih fun l2 hl2 => h l2 (List.mem_cons_of_mem l hl2)
    show l :: (fileContentOf rest).splitOn '\n' = (l :: rest) ++ [[]]
    rw [ihr]
    rfl

/-- Claim C8: for a feature set whose elements are non-empty, trimmed
and newline-free, write_list writes the elements one per line sorted
lexicographically ascending, and re-reading the written file text with
load_features returns exactly those lines, reproducing the original
set. -/
theorem write_list_roundtrip (S : Finset Str)
    (h : ∀ x ∈ S, x ≠ [] ∧ pyStrip x = x ∧ '\n' ∉ x) :
    List.Sorted (· ≤ ·) (write_list S) ∧
    (write_list S).toFinset = S ∧
    load_features (some (fileContentOf (write_list S))) = write_list S ∧
    (load_features (some (fileContentOf (write_list S)))).toFinset = S := by
  have hmemS : ∀ x ∈ write_list S, x ≠ [] ∧ pyStrip x = x ∧ '\n' ∉ x :=
    fun x hx => h x (mem_write_list.mp hx)
  have hsplit := splitOn_fileContent (write_list S) fun l hl => (hmemS l hl).2.2
  have hload : load_features (some (fileContentOf (write_list S))) = write_list S := by
    show loadLoop ((fileContentOf (write_list S)).splitOn '\n') = write_list S
    rw [hsplit, loadLoop_eq, List.map_append, List.filter_append]
    have h1 : ((write_list S).map pyStrip).filter (fun y => !y.isEmpty) = write_list S :=
      filter_map_fix _ (fun y hy => (hmemS y hy).2.1)
        (fun y hy => by simpa using (hmemS y hy).1)
    have h2 : (([[]] : List Str).map pyStrip).filter (fun y => !y.isEmpty) = [] := rfl
    rw [h1, h2, List.append_nil]
  exact ⟨write_list_sorted S, write_list_toFinset S, hload, by
    rw [hload]
    exact write_list_toFinset S⟩

/-- Witness for claim C8 at a concrete two-element feature set. -/
theorem write_list_roundtrip_witness :
    List.Sorted (· ≤ ·) (write_list ({"b".toList, "a".toList} : Finset Str)) ∧
    (write_list ({"b".toList, "a".toList} : Finset Str)).toFinset = {"b".toList, "a".toList} ∧
    load_features (some (fileContentOf (write_list ({"b".toList, "a".toList} : Finset Str)))) =
      write_list ({"b".toList, "a".toList} : Finset Str) ∧
    (load_features
        (some (fileContentOf (write_list ({"b".toList, "a".toList} : Finset Str))))).toFinset =
      {"b".toList, "a".toList} :=
  write_list_roundtrip _ (by decide)

/-! ## Theory of the report renderer -/

lemma within_pre {x r : Str} : x <:+: x ++ r := ⟨[], r, by simp⟩

lemma within_suf {x l : Str} : x <:+: l ++ x := ⟨l, [], by simp⟩

lemma within_app_left (l : Str) {x m : Str} (h : x <:+: m) : x <:+: l ++ m := by
  rcases h with ⟨s, t, rfl⟩
  exact ⟨l ++ s, t, by simp [List.append_assoc]⟩

lemma within_app_right (r : Str) {x m : Str} (h : x <:+: m) : x <:+: m ++ r := by
  rcases h with ⟨s, t, rfl⟩
  exact ⟨s, t ++ r, by simp [List.append_assoc]⟩

lemma within_trans {x y z : Str} (h1 : x <:+: y) (h2 : y <:+: z) : x <:+: z := by
  rcases h1 with ⟨s1, t1, rfl⟩
  rcases h2 with ⟨s2, t2, rfl⟩
  exact ⟨s2 ++ s1, t1 ++ t2, by simp [List.append_assoc]⟩

lemma within_flatten_of_mem {x : Str} {L : List Str} (h : x ∈ L) : x <:+: L.flatten := by
  induction L with
  | nil => cases h
  | cons a L ih =>
    rw [List.flatten_cons]
    rcases List.mem_cons.mp h with rfl | h2
    · exact within_pre
    · exact within_app_left a (ih h2)

lemma mem_intersperse {x sep : Str} {L : List Str} (h : x ∈ L) :
    x ∈ L.intersperse sep := by
  induction L with
  | nil => cases h
  | cons a L ih =>
    cases L with
    | nil => simpa using h
    | cons b L2 =>
      rw [List.intersperse_cons_cons]
      rcases List.mem_cons.mp h with rfl | h2
      · exact List.mem_cons_self _ _
      · exact List.mem_cons_of_mem _ (List.mem_cons_of_mem _ (ih h2))

lemma within_intercalate_of_mem {x sep : Str} {L : List Str} (h : x ∈ L) :
    x <:+: List.intercalate sep L := by
  unfold List.intercalate
  exact within_flatten_of_mem (mem_intersperse h)

lemma exists_mem_enumFrom {α : Type} {a : α} :
    ∀ l : List α, a ∈ l → ∀ n : Nat, ∃ i, (i, a) ∈ l.enumFrom n := by
  intro l
  induction l with
  | nil => intro h; cases h
  | cons b l ih =>
    intro h n
    rcases List.mem_cons.mp h with rfl | h2
    · exact ⟨n, List.mem_cons_self _ _⟩
    · rcases ih h2 (n + 1) with ⟨i, hi⟩
      exact ⟨i, List.mem_cons_of_mem _ hi⟩

lemma htmlEscape_no_angle (s : Str) : ∀ c ∈ htmlEscape s, c ≠ '<' ∧ c ≠ '>' := by
  intro c hc
  rcases List.mem_flatMap.mp hc with ⟨d, -, hd⟩
  unfold escChar at hd
  split_ifs at hd with h1 h2 h3 h4 h5
  · exact (by decide : ∀ x ∈ "&amp;".toList, x ≠ '<' ∧ x ≠ '>') c hd
  · exact (by decide : ∀ x ∈ "&lt;".toList, x ≠ '<' ∧ x ≠ '>') c hd
  · exact (by decide : ∀ x ∈ "&gt;".toList, x ≠ '<' ∧ x ≠ '>') c hd
  · exact (by decide : ∀ x ∈ "&quot;".toList, x ≠ '<' ∧ x ≠ '>') c hd
  · exact (by decide : ∀ x ∈ "&#x27;".toList, x ≠ '<' ∧ x ≠ '>') c hd
  · rw [List.mem_singleton] at hd
    subst hd
    exact ⟨h2, h3⟩

lemma li_within_features_cell {f : Str} {feats : List Str} (h : f ∈ feats) :
    liPiece f <:+: features_cell feats := by
  have hne : ¬(feats.isEmpty = true) := by
    intro he
    rw [List.isEmpty_iff] at he
    subst he
    cases h
  unfold features_cell
  rw [if_neg hne]
  apply within_app_right
  apply within_app_left
  exact within_intercalate_of_mem (List.mem_map_of_mem _ h)

lemma liPiece_within_table_row {data : DataTree} {g s m f : Str}
    (hm : m ∈ MODELS) (hf : f ∈ data g s m) :
    liPiece f <:+: table_row data g s := by
  have h1 : liPiece f <:+: "<td>".toList ++ features_cell (data g s m) ++ "</td>".toList :=
    within_app_right _ (within_app_left _ (li_within_features_cell hf))
  have h2 : ("<td>".toList ++ features_cell (data g s m) ++ "</td>".toList) ∈
      (MODELS.map fun m => "<td>".toList ++ features_cell (data g s m) ++ "</td>".toList) :=
    List.mem_map_of_mem _ hm
  unfold table_row
  apply within_app_right
  apply within_app_left
  exact within_trans h1 (within_flatten_of_mem h2)

lemma liPiece_within_scenario_section {data : DataTree} {g_folder m f : Str}
    (gi : Nat) (p : Nat × (Str × Str)) (hm : m ∈ MODELS) (hf : f ∈ data g_folder p.2.1 m) :
    liPiece f <:+: scenario_section data gi g_folder p := by
  unfold scenario_section
  apply within_app_right
  apply within_app_left
  exact liPiece_within_table_row hm hf

lemma scenario_section_within_group_section (data : DataTree) (p : Nat × (Str × Str))
    {sp : Nat × (Str × Str)} (hsp : sp ∈ SCENARIOS.enum) :
    scenario_section data p.1 p.2.1 sp <:+: group_section data p := by
  unfold group_section
  apply within_app_right
  apply within_app_left
  exact within_flatten_of_mem (List.mem_map_of_mem _ hsp)

lemma group_section_within_build (title base_dir generated_at : Str) (data : DataTree)
    {gp : Nat × (Str × Str)} (hgp : gp ∈ GROUPS.enum) :
    group_section data gp <:+: build_html title base_dir generated_at data := by
  unfold build_html sections_html
  apply within_app_right
  apply within_app_right
  apply within_app_right
  apply within_app_left
  exact within_intercalate_of_mem (List.mem_map_of_mem _ hgp)

lemma esc_label_within_group_section (data : DataTree) (p : Nat × (Str × Str)) :
    htmlEscape p.2.2 <:+: group_section data p := by
  unfold group_section
  apply within_app_right
  apply within_app_right
  apply within_app_right
  apply within_app_right
  apply within_app_right
  exact within_suf

lemma esc_label_within_scenario_section (data : DataTree) (gi : Nat) (g_folder : Str)
    (p : Nat × (Str × Str)) :
    htmlEscape p.2.2 <:+: scenario_section data gi g_folder p := by
  unfold scenario_section
  apply within_app_right
  apply within_app_right
  apply within_app_right
  apply within_app_right
  apply within_app_right
  apply within_app_right
  apply within_app_right
  exact within_suf

lemma th_within_table_head {m : Str} (hm : m ∈ MODELS) :
    "<th>".toList ++ htmlEscape m ++ "</th>".toList <:+: table_head := by
  unfold table_head
  exact within_flatten_of_mem (List.mem_map_of_mem _ hm)

lemma table_head_within_scenario_section (data : DataTree) (gi : Nat) (g_folder : Str)
    (p : Nat × (Str × Str)) :
    table_head <:+: scenario_section data gi g_folder p := by
  unfold scenario_section
  apply within_app_right
  apply within_app_right
  apply within_app_right
  exact within_suf

/-- Claim C9: everything file-derived or user-supplied that build_html
interpolates goes through html.escape, whose output contains no angle
bracket, so a feature name containing a script tag appears only as
escaped text, never as live markup: no escaped text contains a raw
angle bracket; the escaped title, base directory, group and scenario
display labels and model names occur in the document; and every feature
of the data tree occurs in the document as its escaped list item. -/
theorem build_html_escaping (title base_dir generated_at : Str) (data : DataTree) :
    (∀ s : Str, ∀ c ∈ htmlEscape s, c ≠ '<' ∧ c ≠ '>') ∧
    htmlEscape title <:+: build_html title base_dir generated_at data ∧
    htmlEscape base_dir <:+: build_html title base_dir generated_at data ∧
    (∀ gf gl : Str, (gf, gl) ∈ GROUPS →
      htmlEscape gl <:+: build_html title base_dir generated_at data) ∧
    (∀ sf sl : Str, (sf, sl) ∈ SCENARIOS →
      htmlEscape sl <:+: build_html title base_dir generated_at data) ∧
    (∀ m ∈ MODELS, htmlEscape m <:+: build_html title base_dir generated_at data) ∧
    (∀ gf gl sf sl m : Str, (gf, gl) ∈ GROUPS → (sf, sl) ∈ SCENARIOS → m ∈ MODELS →
      ∀ f ∈ data gf sf m, liPiece f <:+: build_html title base_dir generated_at data) := by
  have hg0 : ((0, ("All Groups".toList, "All Groups".toList)) : Nat × (Str × Str)) ∈
      GROUPS.enum := by decide
  have hs0 : ((0, ("Normal only".toList, "Normal only".toList)) : Nat × (Str × Str)) ∈
      SCENARIOS.enum := by decide
  refine ⟨fun s => htmlEscape_no_angle s, ?_, ?_, ?_, ?_, ?_, ?_⟩
  · unfold build_html
    apply within_app_right
    apply within_app_right
    apply within_app_right
    apply within_app_right
    apply within_app_right
    apply within_app_right
    apply within_app_right
    apply within_app_right
    apply within_app_right
    apply within_app_right
    apply within_app_right
    apply within_app_right
    apply within_app_right
    exact within_suf
  · unfold build_html
    apply within_app_right
    apply within_app_right
    apply within_app_right
    apply within_app_right
    apply within_app_right
    apply within_app_right
    apply within_app_right
    exact within_suf
  · intro gf gl hg
    rcases exists_mem_enumFrom GROUPS hg 0 with ⟨i, hi⟩
    exact within_trans (esc_label_within_group_section data (i, (gf, gl)))
      (group_section_within_build title base_dir generated_at data hi)
  · intro sf sl hs
    rcases exists_mem_enumFrom SCENARIOS hs 0 with ⟨i, hi⟩
    exact within_trans (within_trans
      (esc_label_within_scenario_section data 0 "All Groups".toList (i, (sf, sl)))
      (scenario_section_within_group_section data
        (0, ("All Groups".toList, "All Groups".toList)) hi))
      (group_section_within_build title base_dir generated_at data hg0)
  · intro m hm
    have h1 : htmlEscape m <:+: "<th>".toList ++ htmlEscape m ++ "</th>".toList :=
      within_app_right _ within_suf
    exact within_trans (within_trans (within_trans (within_trans h1 (th_within_table_head hm))
      (table_head_within_scenario_section data 0 "All Groups".toList
        (0, ("Normal only".toList, "Normal only".toList))))
      (scenario_section_within_group_section data
        (0, ("All Groups".toList, "All Groups".toList)) hs0))
      (group_section_within_build title base_dir generated_at data hg0)
  · intro gf gl sf sl m hg hs hm f hf
    rcases exists_mem_enumFrom GROUPS hg 0 with ⟨i, hi⟩
    rcases exists_mem_enumFrom SCENARIOS hs 0 with ⟨j, hj⟩
    exact within_trans (within_trans
      (liPiece_within_scenario_section i (j, (sf, sl)) hm hf)
      (scenario_section_within_group_section data (i, (gf, gl)) hj))
      (group_section_within_build title base_dir generated_at data hi)

/-- Witness for claim C9: a concrete page whose only feature name
contains a script tag. -/
theorem build_html_escaping_witness :
    (∀ c ∈ htmlEscape "<script>alert(1)</script>".toList, c ≠ '<' ∧ c ≠ '>') ∧
    liPiece "<script>alert(1)</script>".toList <:+:
      build_html "t".toList "b".toList "now".toList
        (fun _ _ _ => ["<script>alert(1)</script>".toList]) := by
  constructor
  · exact (build_html_escaping "t".toList "b".toList "now".toList
      (fun _ _ _ => ["<script>alert(1)</script>".toList])).1 "<script>alert(1)</script>".toList
  · exact (build_html_escaping "t".toList "b".toList "now".toList
      (fun _ _ _ => ["<script>alert(1)</script>".toList])).2.2.2.2.2.2
      "All Groups".toList "All Groups".toList "Normal only".toList "Normal only".toList
      "MLP".toList (by decide) (by decide) (by decide)
      "<script>alert(1)</script>".toList (List.mem_singleton.mpr rfl)

